import Mathlib

/-
Verification of the WheelFlow simulation-pipeline orchestrator.

This file gives a shallow embedding, in Lean 4, of the orchestration core of
the WheelFlow backend (src/backend/app.py, src/backend/parallel.py,
src/backend/database.py) and proves properties of that embedding.

Modelling conventions:
* Python dictionaries holding job records become Lean structures; keys that may
  be absent become `Option` fields.
* Python floats are modelled as rationals (`ℚ`).  Every numeric fact proved
  here involves only values and operations that are exact in both binary
  floating point and `ℚ` (small integers, sums of integers, halving).
* External processes (OpenFOAM tools, the file system, result extraction) are
  modelled by an explicit environment (oracle) that fixes the outcome of each
  external step: found / not found for files, exit status plus stderr for each
  tool invocation, and the extracted result payload.
* `math.sin(math.radians(yaw))` is abstracted as an uninterpreted parameter
  `sinDeg : ℚ → ℚ`; it only feeds the `Cs` / `side_N` output columns, whose
  numeric values no property here depends on.
* The Python `while` loop of the factorizer is expressed with an explicit fuel
  argument so that the function is structurally recursive (and hence reduces
  inside the kernel); fuel `n` is ample, since every iteration divides `n` by
  at least 2, and an exhausted-fuel result never occurs for the inputs the
  source can reach (`n ≥ 1`).
-/

namespace WheelFlow

/-! ## Decomposition planner

Embedding of `_factorize` from src/backend/parallel.py (duplicated inline in
`generate_decompose_dict` in src/backend/app.py):

```
factors = []
for i in [2, 3, 5, 7]:
    while n % i == 0:
        factors.append(i)
        n //= i
if n > 1:
    factors.append(n)
result = [1, 1, 1]
for f in sorted(factors, reverse=True):
    min_idx = result.index(min(result))
    result[min_idx] *= f
```
-/

/-- The `while n % i == 0` loop body: repeatedly divide `n` by `i`, collecting
one copy of `i` per division.  Structured with fuel for structural recursion;
the guard `1 < i ∧ 0 < n` is implied at every call site (`i ∈ [2,3,5,7]`,
`n ≥ 1` maintained) and makes the exhausted-fuel branch unreachable there. -/

def divideOutF : Nat → Nat → Nat → List Nat × Nat
  | 0, _, n => ([], n)
  | fuel + 1, i, n =>
    if 1 < i ∧ 0 < n ∧ n % i = 0 then
      let r := divideOutF fuel i (n / i)
      (i :: r.1, r.2)
    else ([], n)

/-- One pass of the inner `while` loop of `_factorize` for divisor `i`. -/

def divideOut (i n : Nat) : List Nat × Nat := divideOutF n i n

/-- The `for i in [2, 3, 5, 7]` loop of `_factorize`: collected prime factors
and the remaining cofactor. -/

def collectFactors : List Nat → Nat → List Nat × Nat
  | [], n => ([], n)
  | i :: is, n =>
    let d := divideOut i n
    let rest := collectFactors is d.2
    (d.1 ++ rest.1, rest.2)

/-- The factor list built by `_factorize` (including the `if n > 1:
factors.append(n)` step). -/

def pyFactors (n : Nat) : List Nat :=
  let c := collectFactors [2, 3, 5, 7] n
  if 1 < c.2 then c.1 ++ [c.2] else c.1

/-- Insertion into a descending list; used to model Python
`sorted(factors, reverse=True)`.  On `Nat` the descending sorted list of a
multiset is unique, so any correct descending sort yields exactly the list
Python produces. -/

def insertDesc (x : Nat) : List Nat → List Nat
  | [] => [x]
  | y :: ys => if y < x then x :: y :: ys else y :: insertDesc x ys

/-- `sorted(factors, reverse=True)`. -/

def sortDesc (l : List Nat) : List Nat := l.foldr insertDesc []

/-- One step of the greedy distribution loop: multiply the factor into the
first slot holding the minimum, exactly as `result.index(min(result))` does. -/

def distStep (t : Nat × Nat × Nat) (f : Nat) : Nat × Nat × Nat :=
  if t.1 ≤ t.2.1 ∧ t.1 ≤ t.2.2 then (t.1 * f, t.2.1, t.2.2)
  else if t.2.1 ≤ t.2.2 then (t.1, t.2.1 * f, t.2.2)
  else (t.1, t.2.1, t.2.2 * f)

/-- The `for f in sorted(factors, reverse=True)` loop. -/

def distribute (fs : List Nat) (t : Nat × Nat × Nat) : Nat × Nat × Nat :=
  fs.foldl distStep t

/-- The decomposition planner `_factorize`, as the 3-tuple of factors. -/

def factorize3 (n : Nat) : Nat × Nat × Nat :=
  distribute (sortDesc (pyFactors n)) (1, 1, 1)

/-- The string `_factorize` actually returns (it renders the tuple as
`"fx fy fz"` for decomposeParDict). -/

def factorizeStr (n : Nat) : String :=
  let r := factorize3 n
  Nat.repr r.1 ++ " " ++ Nat.repr r.2.1 ++ " " ++ Nat.repr r.2.2

/-! ## Job data model

Job records as created by `db.create_job` (src/backend/database.py) plus the
in-memory cache fields set in `start_simulation` (src/backend/app.py).  Result
payloads mirror the nested dictionaries produced by `extract_results`:
`results["coefficients"]` / `results["forces"]` may be absent, and each
numeric key inside them may be absent (the aggregator reads them with
`.get(key, 0)`). -/

structure Coefficients where
  Cd : Option ℚ
  Cl : Option ℚ
  Cm : Option ℚ
deriving DecidableEq

structure Forces where
  drag_N : Option ℚ
  lift_N : Option ℚ
deriving DecidableEq

structure JobResults where
  coefficients : Option Coefficients
  forces : Option Forces
  CdA : Option ℚ
deriving DecidableEq

/-- The simulation parameters fixed at job creation that the orchestrator and
the batch aggregator actually read.  `yaw_angle` is present only on batch
sub-jobs (the aggregator reads it with `.get("yaw_angle", 0)`). -/

structure Config where
  file_id : String
  quality : String
  rotation_method : String
  rolling_enabled : Bool
  gpu_acceleration : Bool
  yaw_angle : Option ℚ
deriving DecidableEq

/-- One job record of the registry (the `jobs` cache entry / database row). -/

structure Job where
  id : String
  status : String
  progress : Nat
  results : Option JobResults
  error : Option String
  config : Config
deriving DecidableEq

/-- The in-memory job entry right after `db.create_job` plus
`job_data["progress"] = 0` in `start_simulation`: status `"pending"`, no
results, no error. -/

def dbCreateJob (id : String) (cfg : Config) : Job :=
  { id := id, status := "pending", progress := 0, results := none,
    error := none, config := cfg }

/-! ## Batch aggregation

Embedding of `aggregate_batch_results` (src/backend/app.py lines 528-597). -/

/-- `coeffs.get("Cd", 0)` where `coeffs = r.get("coefficients", {})`. -/

def coeffCd (r : JobResults) : ℚ := (r.coefficients.bind Coefficients.Cd).getD 0

def coeffCl (r : JobResults) : ℚ := (r.coefficients.bind Coefficients.Cl).getD 0

def coeffCm (r : JobResults) : ℚ := (r.coefficients.bind Coefficients.Cm).getD 0

def forceDrag (r : JobResults) : ℚ := (r.forces.bind Forces.drag_N).getD 0

def forceLift (r : JobResults) : ℚ := (r.forces.bind Forces.lift_N).getD 0

def cdaVal (r : JobResults) : ℚ := r.CdA.getD 0

/-- The running aggregate (the `results` dictionary built by
`aggregate_batch_results`).  `avg_Cd` / `avg_drag_N` are `none` when the key
is absent from the dictionary. -/

structure BatchResults where
  batch_id : String
  yaw_angles : List ℚ
  Cd : List (Option ℚ)
  Cl : List (Option ℚ)
  Cs : List (Option ℚ)
  Cm : List (Option ℚ)
  drag_N : List (Option ℚ)
  lift_N : List (Option ℚ)
  side_N : List (Option ℚ)
  CdA : List (Option ℚ)
  completed_jobs : Nat
  failed_jobs : Nat
  avg_Cd : Option ℚ
  avg_drag_N : Option ℚ
deriving DecidableEq

def aggInit (batch_id : String) : BatchResults :=
  { batch_id := batch_id, yaw_angles := [], Cd := [], Cl := [], Cs := [],
    Cm := [], drag_N := [], lift_N := [], side_N := [], CdA := [],
    completed_jobs := 0, failed_jobs := 0, avg_Cd := none, avg_drag_N := none }

/-- The `else` branch of the aggregation loop: append a `None` placeholder to
every metric column and count the job as failed. -/

def aggNull (acc : BatchResults) : BatchResults :=
  { acc with
    Cd := acc.Cd ++ [none], Cl := acc.Cl ++ [none], Cs := acc.Cs ++ [none],
    Cm := acc.Cm ++ [none], drag_N := acc.drag_N ++ [none],
    lift_N := acc.lift_N ++ [none], side_N := acc.side_N ++ [none],
    CdA := acc.CdA ++ [none], failed_jobs := acc.failed_jobs + 1 }

/-- One iteration of `for job_id in job_ids` (for a job found in the
registry).  `sinDeg` abstracts `math.sin(math.radians(yaw))`. -/

def aggStep (sinDeg : ℚ → ℚ) (acc : BatchResults) (job : Job) : BatchResults :=
  let yaw := job.config.yaw_angle.getD 0
  let acc1 := { acc with yaw_angles := acc.yaw_angles ++ [yaw] }
  if job.status = "complete" then
    match job.results with
    | some r =>
      { acc1 with
        Cd := acc1.Cd ++ [some (coeffCd r)],
        Cl := acc1.Cl ++ [some (coeffCl r)],
        Cm := acc1.Cm ++ [some (coeffCm r)],
        drag_N := acc1.drag_N ++ [some (forceDrag r)],
        lift_N := acc1.lift_N ++ [some (forceLift r)],
        CdA := acc1.CdA ++ [some (cdaVal r)],
        Cs := acc1.Cs ++ [some (if yaw ≠ 0 then coeffCl r * sinDeg yaw else 0)],
        side_N := acc1.side_N ++
          [some (if yaw ≠ 0 then forceLift r * sinDeg yaw else 0)],
        completed_jobs := acc1.completed_jobs + 1 }
    | none => aggNull acc1
  else aggNull acc1

/-- `sum(values) / len(values)`. -/

def pyMean (l : List ℚ) : ℚ := l.sum / (l.length : ℚ)

/-- The tail of `aggregate_batch_results`: compute `avg_Cd` / `avg_drag_N`
over the non-None entries, leaving the key absent when no entry is non-None
(`if valid_Cd: results["avg_Cd"] = sum(valid_Cd) / len(valid_Cd)`). -/

def aggAverages (body : BatchResults) : BatchResults :=
  let valid_Cd := body.Cd.filterMap id
  let valid_drag := body.drag_N.filterMap id
  let withCd :=
    if valid_Cd ≠ [] then { body with avg_Cd := some (pyMean valid_Cd) } else body
  if valid_drag ≠ [] then { withCd with avg_drag_N := some (pyMean valid_drag) }
  else withCd

/-- `aggregate_batch_results(batch_id, job_ids)`.  The registry lookup
`jobs.get(job_id)` is the function `reg`; a job id absent from the registry is
skipped by `continue` (hence `filterMap`). -/

def aggregate_batch_results (sinDeg : ℚ → ℚ) (batch_id : String)
    (reg : String → Option Job) (job_ids : List String) : BatchResults :=
  aggAverages ((job_ids.filterMap reg).foldl (aggStep sinDeg) (aggInit batch_id))

/-- The entry the loop appends to the `Cd` column for one registry-found job:
the job's Cd value when the job is complete (with a truthy result), a `None`
placeholder otherwise. -/

def cdEntry (j : Job) : Option ℚ :=
  if j.status = "complete" then j.results.map coeffCd else none

def dragEntry (j : Job) : Option ℚ :=
  if j.status = "complete" then j.results.map forceDrag else none

/-- Whether the loop takes its complete branch for this job
(`job["status"] == "complete" and job.get("results")`). -/

def aggOk (j : Job) : Bool := j.status = "complete" ∧ j.results.isSome

/-- A concrete complete sub-job whose result has Cd = v. -/

def exJobComplete (v : ℚ) : Job :=
  { id := "x", status := "complete", progress := 100,
    results := some { coefficients := some { Cd := some v, Cl := none, Cm := none },
                      forces := none, CdA := none },
    error := none,
    config := { file_id := "f", quality := "standard", rotation_method := "mrf",
                rolling_enabled := true, gpu_acceleration := false,
                yaw_angle := some 0 } }

/-- A concrete failed sub-job. -/

def exJobFailed : Job :=
  { id := "y", status := "failed", progress := 45, results := none,
    error := some "snappyHexMesh failed: boom",
    config := { file_id := "f", quality := "standard", rotation_method := "mrf",
                rolling_enabled := true, gpu_acceleration := false,
                yaw_angle := some 5 } }

/-- Registry holding the sub-jobs [complete(Cd=1.0), failed, complete(Cd=3.0)]
of the C2 scenario. -/

def exReg : String → Option Job := fun s =>
  if s = "a" then some (exJobComplete 1)
  else if s = "b" then some exJobFailed
  else if s = "c" then some (exJobComplete 3)
  else none

/-! ## Tool invoker

Embedding of `run_openfoam_command` (src/backend/app.py lines 1856-1968).
The file-system state of a job's case directory that the invoker inspects is
whether `system/decomposeParDict` exists and whether `processor*` directories
exist; external process outcomes are oracle parameters (`decomposeErr`,
`exitRes`: `none` = exit 0, `some stderr` = non-zero exit with that stderr).
The observable side effects are recorded as a list of actions. -/

/-- One `run_openfoam_command` call's parameters, as recorded invocation. -/

structure Invocation where
  command : String
  args : List String
  parallel : Bool
  num_procs : Nat
deriving DecidableEq

inductive FoamAction where
  | generateDecomposeDict
  | decomposePar
  | runSerial (command : String) (args : List String)
  | runMPI (command : String) (np : Nat) (args : List String)
  | writeLog (command : String)
  | reconstructParMesh
  | reconstructPar
  | removeProcessorDirs
deriving DecidableEq

/-- The case-directory state the invoker inspects and mutates. -/

structure Workspace where
  hasDecomposeDict : Bool
  processorDirs : Bool
deriving DecidableEq

/-- `serial_only = ["blockMesh", "surfaceFeatureExtract", "checkMesh"]`. -/

def serial_only : List String := ["blockMesh", "surfaceFeatureExtract", "checkMesh"]

/-- The commands reconstructed with `reconstructPar` after a parallel run. -/

def reconstructFieldCommands : List String := ["simpleFoam", "pimpleFoam", "foamRun"]

/-- The part of `run_openfoam_command` from process launch onward: run the
command (serial or under mpirun), write the log, raise on non-zero exit, then
reconstruct: for parallel `snappyHexMesh` run `reconstructParMesh` and delete
the `processor*` directories; for parallel solver commands run
`reconstructPar`. -/

def foamRunPhase (wrp : Bool) (command : String) (args : List String)
    (num_procs : Nat) (exitRes : Option String) (ws : Workspace)
    (acts : List FoamAction) : Option String × Workspace × List FoamAction :=
  let acts := acts ++
    [if wrp then FoamAction.runMPI command num_procs args
     else FoamAction.runSerial command args,
     FoamAction.writeLog command]
  match exitRes with
  | some stderr => (some (command ++ " failed: " ++ stderr), ws, acts)
  | none =>
    if wrp then
      if command = "snappyHexMesh" then
        (none, { ws with processorDirs := false },
          acts ++ [FoamAction.reconstructParMesh, FoamAction.removeProcessorDirs])
      else if reconstructFieldCommands.contains command then
        (none, ws, acts ++ [FoamAction.reconstructPar])
      else (none, ws, acts)
    else (none, ws, acts)

/-- `run_openfoam_command`: when the command will actually run in parallel
(`parallel` requested and the command is not serial-only), ensure a
decomposeParDict exists, run `decomposePar` if there are no `processor*`
directories yet (raising on its failure), then hand over to the run phase. -/

def runOpenfoamCommand (ws : Workspace) (command : String) (args : List String)
    (parallel : Bool) (num_procs : Nat) (decomposeErr exitRes : Option String) :
    Option String × Workspace × List FoamAction :=
  let wrp := parallel && !(serial_only.contains command)
  if wrp then
    let wsd := if ws.hasDecomposeDict then ws else { ws with hasDecomposeDict := true }
    let actsd :=
      if ws.hasDecomposeDict then ([] : List FoamAction)
      else [FoamAction.generateDecomposeDict]
    if wsd.processorDirs then foamRunPhase wrp command args num_procs exitRes wsd actsd
    else
      match decomposeErr with
      | some stderr =>
        (some ("decomposePar failed: " ++ stderr), wsd,
          actsd ++ [FoamAction.decomposePar])
      | none =>
        foamRunPhase wrp command args num_procs exitRes
          { wsd with processorDirs := true } (actsd ++ [FoamAction.decomposePar])
  else foamRunPhase wrp command args num_procs exitRes ws []

/-! ## Pipeline orchestrator

Embedding of `run_simulation` (src/backend/app.py lines 621-830).  External
effects are fixed by an environment oracle; the job record writes are logged
as a trace (the successive registry-observable states of the in-memory job
entry, which is the Job Registry's cache).  Pure template generation
(`generate_case_files` and the transient-branch file writes) is the
config-templating collaborator; its only orchestrator-visible behaviour is
raising or not, captured by `caseGenErr`.  `prepErr` captures exceptions from
the geometry collaborator steps (STL validation / transform / frontal-area)
once the source file was found. -/

structure Env where
  fileFound : Bool
  prepErr : Option String
  caseGenErr : Option String
  numCpus : Nat
  decomposeErr : Option String
  blockMeshErr : Option String
  snappyErr : Option String
  topoSetErr : Option String
  potentialFoamErr : Option String
  foamRunErr : Option String
  extract : Except String JobResults

/-- Orchestrator state: the in-memory job entry, the trace of its successive
written states, the case-directory state, and the recorded invocations and
actions. -/

structure St where
  job : Job
  trace : List Job
  ws : Workspace
  invs : List Invocation
  acts : List FoamAction

def initSt (job0 : Job) : St :=
  { job := job0, trace := [],
    ws := { hasDecomposeDict := false, processorDirs := false },
    invs := [], acts := [] }

/-- Mutate the job entry and record the new observable state. -/

def wr (s : St) (f : Job → Job) : St :=
  let j := f s.job
  { s with job := j, trace := s.trace ++ [j] }

def setStatus (s : St) (x : String) : St := wr s (fun j => { j with status := x })

def setProgress (s : St) (p : Nat) : St := wr s (fun j => { j with progress := p })

def setResults (s : St) (r : JobResults) : St :=
  wr s (fun j => { j with results := some r })

/-- The `except Exception as e` handler:
`job["status"] = "failed"; job["error"] = str(e)`. -/

def failWith (s : St) (msg : String) : St :=
  wr (setStatus s "failed") (fun j => { j with error := some msg })

/-- An `await run_openfoam_command(...)` call site: thread the workspace,
record the invocation and its actions, and surface the raised error if any. -/

def callFoam (s : St) (command : String) (args : List String) (parallel : Bool)
    (num_procs : Nat) (decomposeErr exitRes : Option String) : St × Option String :=
  let r := runOpenfoamCommand s.ws command args parallel num_procs decomposeErr exitRes
  let inv : Invocation :=
    { command := command, args := args, parallel := parallel, num_procs := num_procs }
  ({ s with
      ws := r.2.1
      invs := s.invs ++ [inv]
      acts := s.acts ++ r.2.2 },
    r.1)

structure RunResult where
  final : Job
  trace : List Job
  invs : List Invocation
  acts : List FoamAction

/-- The end of `run_simulation`: timestamp and `sync_job_to_db` persist the
(final) in-memory job entry. -/

def finishRun (s : St) : RunResult :=
  { final := s.job, trace := s.trace, invs := s.invs, acts := s.acts }

/-- `num_procs = max(4, min(num_cpus // 2, 16))`. -/

def numProcsOf (ncpus : Nat) : Nat := max 4 (min (ncpus / 2) 16)

/-- `run_simulation(job_id)` as a function of the environment oracle and the
job entry found in the cache.  Faithful to the source stage order:
preparing (file resolution / geometry preparation), case generation,
blockMesh (serial), snappyHexMesh (explicitly serial, `parallel=False`),
conditional topoSet for MRF, best-effort potentialFoam (exceptions caught),
foamRun (parallel per quality tier), result extraction; any uncaught
exception falls into the handler that marks the job failed. -/

def runSimulation (env : Env) (job0 : Job) : RunResult :=
  let cfg := job0.config
  let s := setProgress (setStatus (initSt job0) "preparing") 5
  if env.fileFound = false then
    finishRun (failWith s ("Source file not found for file_id: " ++ cfg.file_id))
  else
    match env.prepErr with
    | some e => finishRun (failWith s e)
    | none =>
      let num_procs := numProcsOf env.numCpus
      let use_parallel : Bool := cfg.quality == "standard" || cfg.quality == "pro"
      match env.caseGenErr with
      | some e => finishRun (failWith s e)
      | none =>
        let s := setProgress s 10
        let s := setProgress (setStatus s "meshing") 15
        match callFoam s "blockMesh" [] false 8 env.decomposeErr env.blockMeshErr with
        | (s, some e) => finishRun (failWith s e)
        | (s, none) =>
          let s := setProgress s 20
          match callFoam s "snappyHexMesh" ["-overwrite"] false num_procs
              env.decomposeErr env.snappyErr with
          | (s, some e) => finishRun (failWith s e)
          | (s, none) =>
            let s := setProgress s 45
            match (if cfg.rotation_method = "mrf" ∧ cfg.rolling_enabled = true then
                callFoam s "topoSet" [] false 8 env.decomposeErr env.topoSetErr
              else (s, none)) with
            | (s, some e) => finishRun (failWith s e)
            | (s, none) =>
              let s := setProgress s 50
              let s :=
                if use_parallel then
                  (callFoam s "potentialFoam" ["-writephi"] use_parallel num_procs
                    env.decomposeErr env.potentialFoamErr).1
                else s
              let s := setProgress (setStatus s "solving") 55
              match callFoam s "foamRun" ["-solver", "incompressibleFluid"]
                  use_parallel num_procs env.decomposeErr env.foamRunErr with
              | (s, some e) => finishRun (failWith s e)
              | (s, none) =>
                let s := setProgress s 85
                let s := setProgress (setStatus s "post-processing") 90
                match env.extract with
                | Except.error e => finishRun (failWith s e)
                | Except.ok r =>
                  finishRun (setStatus (setProgress (setResults s r) 100) "complete")

/-! ## Registry-observable invariants of one pipeline run -/

/-- The relation claimed between successive registry-observable job states:
progress never decreases while no failure has been recorded. -/

def progressRel (a b : Job) : Prop := b.status ≠ "failed" → a.progress ≤ b.progress

/-- The first job state `run_simulation` writes (status `"preparing"`). -/

def prepJob (job0 : Job) : Job := { job0 with status := "preparing" }

/-- The second job state `run_simulation` writes (progress checkpoint 5). -/

def prepJob5 (job0 : Job) : Job := { job0 with status := "preparing", progress := 5 }

/-- Invariant holding at every non-terminal point of a `run_simulation` call
started on job entry `job0`: the trace starts with the two preparing writes,
the last written state is the current job entry, ids never change, every
recorded `snappyHexMesh` invocation is serial, and (for a fresh job) the
trace is a `progressRel` chain. -/

def Mid (job0 : Job) (s : St) : Prop :=
  s.trace.take 2 = [prepJob job0, prepJob5 job0] ∧
  2 ≤ s.trace.length ∧
  (job0 :: s.trace).getLast? = some s.job ∧
  s.job.id = job0.id ∧
  (∀ j ∈ s.trace, j.id = job0.id) ∧
  (∀ i ∈ s.invs, i.command = "snappyHexMesh" → i.parallel = false) ∧
  (job0.progress ≤ 5 → List.Chain' progressRel (job0 :: s.trace))

/-- The facts about one finished run needed by the claims. -/

def GoodRun (job0 : Job) (out : RunResult) : Prop :=
  out.trace.take 2 = [prepJob job0, prepJob5 job0] ∧
  out.final.id = job0.id ∧
  (∀ j ∈ out.trace, j.id = job0.id) ∧
  (∀ i ∈ out.invs, i.command = "snappyHexMesh" → i.parallel = false) ∧
  (job0.progress ≤ 5 → List.Chain' progressRel (job0 :: out.trace)) ∧
  (job0.results = none → job0.error = none →
    ((out.final.results ≠ none ↔ out.final.status = "complete") ∧
     (out.final.error ≠ none ↔ out.final.status = "failed")))

/-- A concrete configuration whose quality tier ("standard") requests
parallel execution. -/

def cfg0 : Config :=
  { file_id := "abc123", quality := "standard", rotation_method := "mrf",
    rolling_enabled := true, gpu_acceleration := false, yaw_angle := none }

/-- A concrete extracted result payload. -/

def res0 : JobResults :=
  { coefficients := some { Cd := some 1, Cl := some 0, Cm := some 0 },
    forces := none, CdA := none }

/-- A concrete environment in which every external step succeeds. -/

def envOk : Env :=
  { fileFound := true, prepErr := none, caseGenErr := none, numCpus := 8,
    decomposeErr := none, blockMeshErr := none, snappyErr := none,
    topoSetErr := none, potentialFoamErr := none, foamRunErr := none,
    extract := Except.ok res0 }

/-- A concrete environment whose geometry source file does not resolve. -/

def envNoFile : Env :=
  { fileFound := false, prepErr := none, caseGenErr := none, numCpus := 8,
    decomposeErr := none, blockMeshErr := none, snappyErr := none,
    topoSetErr := none, potentialFoamErr := none, foamRunErr := none,
    extract := Except.ok res0 }

/-- A concrete job already in the terminal state complete. -/

def jobDone : Job :=
  { id := "jdone", status := "complete", progress := 100,
    results := some res0, error := none, config := cfg0 }

/-! ## Batch sub-job id generation

Embedding of the id construction in `start_batch_simulation`
(src/backend/app.py line 439): `job_id = f"{batch_id}_{int(yaw):02d}"`.
Yaw angles (Python floats) are modelled as rationals; `int()` truncates
toward zero, which on the exact value agrees with truncating the float for
the inputs at issue. -/

/-- Python `int()` applied to a number: truncation toward zero, i.e.
`Int.tdiv` of the numerator by the denominator (in lowest terms).  Note plain
`Int` division would round toward negative infinity and disagree with
Python on negative non-integers (e.g. `int(-0.5) = 0`, not `-1`). -/

def pyInt (q : ℚ) : Int := q.num.tdiv (q.den : Int)

/-- Little-endian base-10 digits, with fuel for structural recursion
(`fuel ≥ n` always suffices). -/

def digitsF : Nat → Nat → List Nat
  | 0, _ => []
  | fuel + 1, n => if n = 0 then [] else n % 10 :: digitsF fuel (n / 10)

/-- Little-endian base-10 digits of `n` (empty for 0). -/

def decDigits (n : Nat) : List Nat := digitsF n n

/-- The character of one decimal digit. -/

def natDigitChar (d : Nat) : Char := Char.ofNat (48 + d)

/-- Standard (big-endian) decimal rendering of a natural number as
characters; empty for 0. -/

def natDecimal (n : Nat) : List Char := ((decDigits n).map natDigitChar).reverse

/-- Python `f"{z:02d}"`: decimal rendering zero-padded to total width 2, the
sign counting toward the width (so `-5` renders as `"-5"`, `5` as `"05"`,
`0` as `"00"`, `12` as `"12"`). -/

def format02 (z : Int) : String :=
  if z < 0 then ⟨'-' :: natDecimal z.natAbs⟩
  else ⟨List.replicate (2 - (natDecimal z.toNat).length) '0' ++ natDecimal z.toNat⟩

/-- One batch sub-job id: `f"{batch_id}_{int(yaw):02d}"`. -/

def batchSubJobId (batch_id : String) (yaw : ℚ) : String :=
  batch_id ++ "_" ++ format02 (pyInt yaw)

/-- The sub-job ids `start_batch_simulation` creates, one per submitted yaw
angle, in order. -/

def batchSubJobIds (batch_id : String) (yaws : List ℚ) : List String :=
  yaws.map (batchSubJobId batch_id)

/-! ## Properties and claim theorems -/

theorem divideOutF_prod (i : Nat) :
    ∀ fuel n, ((divideOutF fuel i n).1.prod * (divideOutF fuel i n).2 = n) := by
  intro fuel
  induction fuel with
  | zero => intro n; simp [divideOutF]
  | succ fuel ih =>
    intro n
    simp only [divideOutF]
    split
    · next h =>
      have hdvd : i ∣ n := Nat.dvd_of_mod_eq_zero h.2.2
      have := ih (n / i)
      simp only [List.prod_cons, mul_assoc, this]
      exact Nat.mul_div_cancel' hdvd
    · simp

theorem collectFactors_prod :
    ∀ (ps : List Nat) (n : Nat),
      (collectFactors ps n).1.prod * (collectFactors ps n).2 = n := by
  intro ps
  induction ps with
  | nil => intro n; simp [collectFactors]
  | cons i is ih =>
    intro n
    simp only [collectFactors, List.prod_append]
    rw [mul_assoc, ih]
    exact divideOutF_prod i n n

theorem pyFactors_prod (n : Nat) (h : 1 ≤ n) : (pyFactors n).prod = n := by
  simp only [pyFactors]
  have hc := collectFactors_prod [2, 3, 5, 7] n
  split
  · next hgt =>
    simp only [List.prod_append, List.prod_cons, List.prod_nil, mul_one]
    exact hc
  · next hle =>
    have h2 : (collectFactors [2, 3, 5, 7] n).2 = 0 ∨
        (collectFactors [2, 3, 5, 7] n).2 = 1 := by omega
    rcases h2 with h2 | h2
    · rw [h2, mul_zero] at hc; omega
    · rw [h2, mul_one] at hc; exact hc

theorem insertDesc_perm (x : Nat) (l : List Nat) :
    List.Perm (insertDesc x l) (x :: l) := by
  induction l with
  | nil => simp [insertDesc]
  | cons y ys ih =>
    simp only [insertDesc]
    split
    · exact List.Perm.refl _
    · exact (ih.cons y).trans (List.Perm.swap x y ys)

theorem sortDesc_perm (l : List Nat) : List.Perm (sortDesc l) l := by
  induction l with
  | nil => simp [sortDesc]
  | cons x xs ih =>
    have : sortDesc (x :: xs) = insertDesc x (sortDesc xs) := rfl
    rw [this]
    exact (insertDesc_perm x (sortDesc xs)).trans (ih.cons x)

theorem distStep_prod (t : Nat × Nat × Nat) (f : Nat) :
    (distStep t f).1 * ((distStep t f).2.1 * (distStep t f).2.2) =
      t.1 * (t.2.1 * t.2.2) * f := by
  simp only [distStep]
  split_ifs <;> ring

theorem distribute_prod :
    ∀ (fs : List Nat) (t : Nat × Nat × Nat),
      (distribute fs t).1 * ((distribute fs t).2.1 * (distribute fs t).2.2) =
        t.1 * (t.2.1 * t.2.2) * fs.prod := by
  intro fs
  induction fs with
  | nil => intro t; simp [distribute]
  | cons f fs ih =>
    intro t
    have : distribute (f :: fs) t = distribute fs (distStep t f) := rfl
    rw [this, ih, distStep_prod, List.prod_cons]
    ring

/-- C1: for every integer N ≥ 1, the decomposition planner (`_factorize` in
src/backend/parallel.py, also inlined in `generate_decompose_dict` in
src/backend/app.py) returns a 3-tuple of factors (fx, fy, fz) with
fx · fy · fz = N and fx, fy, fz ≥ 1, including degenerate N (1 or a prime). -/

theorem factorize3_product_positive (n : Nat) (h : 1 ≤ n) :
    (factorize3 n).1 * (factorize3 n).2.1 * (factorize3 n).2.2 = n ∧
      1 ≤ (factorize3 n).1 ∧ 1 ≤ (factorize3 n).2.1 ∧ 1 ≤ (factorize3 n).2.2 := by
  have hperm := sortDesc_perm (pyFactors n)
  have hprod : (factorize3 n).1 * ((factorize3 n).2.1 * (factorize3 n).2.2) = n := by
    unfold factorize3
    rw [distribute_prod, hperm.prod_eq, pyFactors_prod n h]
    ring
  refine ⟨by rw [← mul_assoc] at hprod; exact hprod, ?_, ?_, ?_⟩
  · rcases Nat.eq_zero_or_pos (factorize3 n).1 with h0 | h1
    · rw [h0, zero_mul] at hprod; omega
    · exact h1
  · rcases Nat.eq_zero_or_pos (factorize3 n).2.1 with h0 | h1
    · rw [h0, zero_mul, mul_zero] at hprod; omega
    · exact h1
  · rcases Nat.eq_zero_or_pos (factorize3 n).2.2 with h0 | h1
    · rw [h0, mul_zero, mul_zero] at hprod; omega
    · exact h1

/-- Witness for C1 at the concrete input N = 12. -/

theorem factorize3_product_positive_witness :
    (factorize3 12).1 * (factorize3 12).2.1 * (factorize3 12).2.2 = 12 ∧
      1 ≤ (factorize3 12).1 ∧ 1 ≤ (factorize3 12).2.1 ∧ 1 ≤ (factorize3 12).2.2 :=
  factorize3_product_positive 12 (by decide)

/-- C8: `planFor(8)` is the perfectly balanced triple (2, 2, 2), and
`planFor(7)` (a prime) yields the unbalanced triple (7, 1, 1), whose product
is still 7. -/

theorem factorize3_eight_seven :
    factorize3 8 = (2, 2, 2) ∧ factorize3 7 = (7, 1, 1) ∧
      (factorize3 7).1 * (factorize3 7).2.1 * (factorize3 7).2.2 = 7 := by
  refine ⟨by decide, by decide, by decide⟩

theorem aggFold_spec (sinDeg : ℚ → ℚ) :
    ∀ (js : List Job) (acc : BatchResults),
      (js.foldl (aggStep sinDeg) acc).Cd = acc.Cd ++ js.map cdEntry ∧
      (js.foldl (aggStep sinDeg) acc).drag_N = acc.drag_N ++ js.map dragEntry ∧
      (js.foldl (aggStep sinDeg) acc).yaw_angles.length =
        acc.yaw_angles.length + js.length ∧
      (js.foldl (aggStep sinDeg) acc).Cl.length = acc.Cl.length + js.length ∧
      (js.foldl (aggStep sinDeg) acc).Cs.length = acc.Cs.length + js.length ∧
      (js.foldl (aggStep sinDeg) acc).Cm.length = acc.Cm.length + js.length ∧
      (js.foldl (aggStep sinDeg) acc).lift_N.length =
        acc.lift_N.length + js.length ∧
      (js.foldl (aggStep sinDeg) acc).side_N.length =
        acc.side_N.length + js.length ∧
      (js.foldl (aggStep sinDeg) acc).CdA.length = acc.CdA.length + js.length ∧
      (js.foldl (aggStep sinDeg) acc).completed_jobs +
          (js.foldl (aggStep sinDeg) acc).failed_jobs =
        acc.completed_jobs + acc.failed_jobs + js.length ∧
      (js.foldl (aggStep sinDeg) acc).avg_Cd = acc.avg_Cd ∧
      (js.foldl (aggStep sinDeg) acc).avg_drag_N = acc.avg_drag_N := by
  intro js
  induction js with
  | nil => intro acc; simp
  | cons j js ih =>
    intro acc
    have step : (j :: js).foldl (aggStep sinDeg) acc =
        js.foldl (aggStep sinDeg) (aggStep sinDeg acc j) := rfl
    rw [step]
    have h := ih (aggStep sinDeg acc j)
    have hstep :
        (aggStep sinDeg acc j).Cd = acc.Cd ++ [cdEntry j] ∧
        (aggStep sinDeg acc j).drag_N = acc.drag_N ++ [dragEntry j] ∧
        (aggStep sinDeg acc j).yaw_angles.length = acc.yaw_angles.length + 1 ∧
        (aggStep sinDeg acc j).Cl.length = acc.Cl.length + 1 ∧
        (aggStep sinDeg acc j).Cs.length = acc.Cs.length + 1 ∧
        (aggStep sinDeg acc j).Cm.length = acc.Cm.length + 1 ∧
        (aggStep sinDeg acc j).lift_N.length = acc.lift_N.length + 1 ∧
        (aggStep sinDeg acc j).side_N.length = acc.side_N.length + 1 ∧
        (aggStep sinDeg acc j).CdA.length = acc.CdA.length + 1 ∧
        (aggStep sinDeg acc j).completed_jobs + (aggStep sinDeg acc j).failed_jobs =
          acc.completed_jobs + acc.failed_jobs + 1 ∧
        (aggStep sinDeg acc j).avg_Cd = acc.avg_Cd ∧
        (aggStep sinDeg acc j).avg_drag_N = acc.avg_drag_N := by
      by_cases hs : j.status = "complete"
      · cases hr : j.results with
        | some r =>
          simp [aggStep, aggNull, cdEntry, dragEntry, hs, hr]
          omega
        | none =>
          simp [aggStep, aggNull, cdEntry, dragEntry, hs, hr]
          omega
      · simp [aggStep, aggNull, cdEntry, dragEntry, hs]
        omega
    obtain ⟨h1, h2, h3, h4, h5, h6, h7, h8, h9, h10, h11, h12⟩ := h
    obtain ⟨g1, g2, g3, g4, g5, g6, g7, g8, g9, g10, g11, g12⟩ := hstep
    refine ⟨?_, ?_, ?_, ?_, ?_, ?_, ?_, ?_, ?_, ?_, ?_, ?_⟩
    · rw [h1, g1, List.append_assoc]; simp
    · rw [h2, g2, List.append_assoc]; simp
    · rw [h3, g3]; simp only [List.length_cons]; omega
    · rw [h4, g4]; simp only [List.length_cons]; omega
    · rw [h5, g5]; simp only [List.length_cons]; omega
    · rw [h6, g6]; simp only [List.length_cons]; omega
    · rw [h7, g7]; simp only [List.length_cons]; omega
    · rw [h8, g8]; simp only [List.length_cons]; omega
    · rw [h9, g9]; simp only [List.length_cons]; omega
    · rw [h10]; simp only [List.length_cons]; omega
    · rw [h11, g11]
    · rw [h12, g12]

theorem aggAverages_fields (b : BatchResults) :
    (aggAverages b).batch_id = b.batch_id ∧
    (aggAverages b).yaw_angles = b.yaw_angles ∧
    (aggAverages b).Cd = b.Cd ∧ (aggAverages b).Cl = b.Cl ∧
    (aggAverages b).Cs = b.Cs ∧ (aggAverages b).Cm = b.Cm ∧
    (aggAverages b).drag_N = b.drag_N ∧ (aggAverages b).lift_N = b.lift_N ∧
    (aggAverages b).side_N = b.side_N ∧ (aggAverages b).CdA = b.CdA ∧
    (aggAverages b).completed_jobs = b.completed_jobs ∧
    (aggAverages b).failed_jobs = b.failed_jobs ∧
    (aggAverages b).avg_Cd =
      (if b.Cd.filterMap id = [] then b.avg_Cd
       else some (pyMean (b.Cd.filterMap id))) ∧
    (aggAverages b).avg_drag_N =
      (if b.drag_N.filterMap id = [] then b.avg_drag_N
       else some (pyMean (b.drag_N.filterMap id))) := by
  by_cases hc : b.Cd.filterMap id = [] <;>
    by_cases hd : b.drag_N.filterMap id = [] <;>
      simp [aggAverages, hc, hd]

/-- All facts about one aggregation run used by the claims: exact contents of
the `Cd` and `drag_N` columns, the two average fields, the length of every
parallel array, and the job counts. -/

theorem aggregate_spec (sinDeg : ℚ → ℚ) (bid : String)
    (reg : String → Option Job) (ids : List String) :
    (aggregate_batch_results sinDeg bid reg ids).Cd =
      (ids.filterMap reg).map cdEntry ∧
    (aggregate_batch_results sinDeg bid reg ids).drag_N =
      (ids.filterMap reg).map dragEntry ∧
    (aggregate_batch_results sinDeg bid reg ids).avg_Cd =
      (if (ids.filterMap reg).filterMap cdEntry = [] then none
       else some (pyMean ((ids.filterMap reg).filterMap cdEntry))) ∧
    (aggregate_batch_results sinDeg bid reg ids).avg_drag_N =
      (if (ids.filterMap reg).filterMap dragEntry = [] then none
       else some (pyMean ((ids.filterMap reg).filterMap dragEntry))) ∧
    (aggregate_batch_results sinDeg bid reg ids).yaw_angles.length =
      (ids.filterMap reg).length ∧
    (aggregate_batch_results sinDeg bid reg ids).Cd.length =
      (ids.filterMap reg).length ∧
    (aggregate_batch_results sinDeg bid reg ids).Cl.length =
      (ids.filterMap reg).length ∧
    (aggregate_batch_results sinDeg bid reg ids).Cs.length =
      (ids.filterMap reg).length ∧
    (aggregate_batch_results sinDeg bid reg ids).Cm.length =
      (ids.filterMap reg).length ∧
    (aggregate_batch_results sinDeg bid reg ids).drag_N.length =
      (ids.filterMap reg).length ∧
    (aggregate_batch_results sinDeg bid reg ids).lift_N.length =
      (ids.filterMap reg).length ∧
    (aggregate_batch_results sinDeg bid reg ids).side_N.length =
      (ids.filterMap reg).length ∧
    (aggregate_batch_results sinDeg bid reg ids).CdA.length =
      (ids.filterMap reg).length ∧
    (aggregate_batch_results sinDeg bid reg ids).completed_jobs +
        (aggregate_batch_results sinDeg bid reg ids).failed_jobs =
      (ids.filterMap reg).length := by
  obtain ⟨h1, h2, h3, h4, h5, h6, h7, h8, h9, h10, h11, h12⟩ :=
    aggFold_spec sinDeg (ids.filterMap reg) (aggInit bid)
  obtain ⟨g1, g2, g3, g4, g5, g6, g7, g8, g9, g10, g11, g12, g13, g14⟩ :=
    aggAverages_fields ((ids.filterMap reg).foldl (aggStep sinDeg) (aggInit bid))
  have hagg : aggregate_batch_results sinDeg bid reg ids =
      aggAverages ((ids.filterMap reg).foldl (aggStep sinDeg) (aggInit bid)) := rfl
  rw [hagg]
  refine ⟨?_, ?_, ?_, ?_, ?_, ?_, ?_, ?_, ?_, ?_, ?_, ?_, ?_, ?_⟩
  · rw [g3, h1]; simp [aggInit]
  · rw [g7, h2]; simp [aggInit]
  · rw [g13, h1, h11]
    have hh : List.filterMap id (List.map cdEntry (List.filterMap reg ids)) =
        List.filterMap cdEntry (List.filterMap reg ids) := by
      simp [List.filterMap_map]
    simp only [aggInit, List.nil_append, hh]
  · rw [g14, h2, h12]
    have hh : List.filterMap id (List.map dragEntry (List.filterMap reg ids)) =
        List.filterMap dragEntry (List.filterMap reg ids) := by
      simp [List.filterMap_map]
    simp only [aggInit, List.nil_append, hh]
  · rw [g2, h3]; simp [aggInit]
  · rw [g3, h1]; simp [aggInit]
  · rw [g4, h4]; simp [aggInit]
  · rw [g5, h5]; simp [aggInit]
  · rw [g6, h6]; simp [aggInit]
  · rw [g7, h2]; simp [aggInit]
  · rw [g8, h7]; simp [aggInit]
  · rw [g9, h8]; simp [aggInit]
  · rw [g10, h9]; simp [aggInit]
  · rw [g11, g12, h10]; simp [aggInit]

/-- C10: every parallel output column of a batch aggregate has the same
length, namely the number of sub-job ids found in the registry at aggregation
time (a sub-job id absent from the registry contributes no entry at all,
hence `filterMap reg`), and `completed_jobs + failed_jobs` equals that common
length. -/

theorem aggregate_array_lengths (sinDeg : ℚ → ℚ) (bid : String)
    (reg : String → Option Job) (ids : List String) :
    (aggregate_batch_results sinDeg bid reg ids).yaw_angles.length =
      (ids.filterMap reg).length ∧
    (aggregate_batch_results sinDeg bid reg ids).Cd.length =
      (ids.filterMap reg).length ∧
    (aggregate_batch_results sinDeg bid reg ids).Cl.length =
      (ids.filterMap reg).length ∧
    (aggregate_batch_results sinDeg bid reg ids).Cs.length =
      (ids.filterMap reg).length ∧
    (aggregate_batch_results sinDeg bid reg ids).Cm.length =
      (ids.filterMap reg).length ∧
    (aggregate_batch_results sinDeg bid reg ids).drag_N.length =
      (ids.filterMap reg).length ∧
    (aggregate_batch_results sinDeg bid reg ids).lift_N.length =
      (ids.filterMap reg).length ∧
    (aggregate_batch_results sinDeg bid reg ids).side_N.length =
      (ids.filterMap reg).length ∧
    (aggregate_batch_results sinDeg bid reg ids).CdA.length =
      (ids.filterMap reg).length ∧
    (aggregate_batch_results sinDeg bid reg ids).completed_jobs +
        (aggregate_batch_results sinDeg bid reg ids).failed_jobs =
      (ids.filterMap reg).length := by
  obtain ⟨-, -, -, -, h5, h6, h7, h8, h9, h10, h11, h12, h13, h14⟩ :=
    aggregate_spec sinDeg bid reg ids
  exact ⟨h5, h6, h7, h8, h9, h10, h11, h12, h13, h14⟩

/-- C2: in batch aggregation each registry-found sub-job position gets the
sub-job's result value exactly when the sub-job is complete and a None
placeholder when it is failed or incomplete; the mean summary `avg_Cd` is
computed only over the non-None entries, and is omitted (key absent, here
`none`) when zero entries are non-None.  In particular, for sub-jobs
[complete(Cd=1.0), failed, complete(Cd=3.0)] the aggregate `Cd` array is
[1.0, None, 3.0] and `avg_Cd` = 2.0.  The hypothesis (every complete job
carries a result payload) is the registry invariant established in C4. -/

theorem aggregate_cd_mean (sinDeg : ℚ → ℚ) (bid : String)
    (reg : String → Option Job) (ids : List String)
    (hinv : ∀ j ∈ ids.filterMap reg, j.status = "complete" → j.results.isSome) :
    (∀ j ∈ ids.filterMap reg, ((cdEntry j).isSome ↔ j.status = "complete")) ∧
    (aggregate_batch_results sinDeg bid reg ids).Cd =
      (ids.filterMap reg).map cdEntry ∧
    (aggregate_batch_results sinDeg bid reg ids).avg_Cd =
      (if (ids.filterMap reg).filterMap cdEntry = [] then none
       else some (pyMean ((ids.filterMap reg).filterMap cdEntry))) ∧
    (aggregate_batch_results sinDeg "batch" exReg ["a", "b", "c"]).Cd =
      [some 1, none, some 3] ∧
    (aggregate_batch_results sinDeg "batch" exReg ["a", "b", "c"]).avg_Cd =
      some 2 := by
  have hspec := aggregate_spec sinDeg bid reg ids
  have hconc := aggregate_spec sinDeg "batch" exReg ["a", "b", "c"]
  have hfound : ["a", "b", "c"].filterMap exReg =
      [exJobComplete 1, exJobFailed, exJobComplete 3] := by rfl
  refine ⟨?_, hspec.1, hspec.2.2.1, ?_, ?_⟩
  · intro j hj
    have h := hinv j hj
    by_cases hs : j.status = "complete"
    · cases hr : j.results with
      | some r => simp [cdEntry, hs, hr]
      | none => rw [hr] at h; simp at h; exact absurd (h hs) (by simp)
    · simp [cdEntry, hs]
  · rw [hconc.1, hfound]
    rfl
  · rw [hconc.2.2.1, hfound]
    have hfm : [exJobComplete 1, exJobFailed, exJobComplete 3].filterMap cdEntry =
        [1, 3] := by rfl
    rw [hfm]
    have : pyMean [1, 3] = 2 := by
      norm_num [pyMean]
    simp [this]

/-- Witness for C2: the theorem applied to the concrete three-sub-job
scenario, discharging the complete-implies-results hypothesis there. -/

theorem aggregate_cd_mean_witness :
    (aggregate_batch_results (fun _ => 0) "batch" exReg ["a", "b", "c"]).Cd =
      [some 1, none, some 3] ∧
    (aggregate_batch_results (fun _ => 0) "batch" exReg ["a", "b", "c"]).avg_Cd =
      some 2 := by
  have h := aggregate_cd_mean (fun _ => 0) "batch" exReg ["a", "b", "c"]
    (by intro j hj; fin_cases hj <;> simp [exJobComplete, exJobFailed])
  exact ⟨h.2.2.2.1, h.2.2.2.2⟩

theorem mid_wr (job0 : Job) (s : St) (f : Job → Job) (h : Mid job0 s)
    (hid : (f s.job).id = s.job.id)
    (hrel : progressRel s.job (f s.job)) :
    Mid job0 (wr s f) := by
  obtain ⟨h1, h2, h3, h4, h5, h6, h7⟩ := h
  refine ⟨?_, ?_, ?_, ?_, ?_, h6, ?_⟩
  · show (s.trace ++ [f s.job]).take 2 = _
    rw [List.take_append_of_le_length h2, h1]
  · show 2 ≤ (s.trace ++ [f s.job]).length
    rw [List.length_append]
    omega
  · show (job0 :: (s.trace ++ [f s.job])).getLast? = some (f s.job)
    rw [show job0 :: (s.trace ++ [f s.job]) = (job0 :: s.trace) ++ [f s.job] by simp]
    exact List.getLast?_concat _
  · show (f s.job).id = job0.id
    rw [hid, h4]
  · intro j hj
    rcases List.mem_append.mp hj with hj | hj
    · exact h5 j hj
    · simp at hj
      subst hj
      rw [hid, h4]
  · intro hp
    have hc := h7 hp
    show List.Chain' progressRel (job0 :: (s.trace ++ [f s.job]))
    rw [show job0 :: (s.trace ++ [f s.job]) = (job0 :: s.trace) ++ [f s.job] by simp]
    refine List.Chain'.append hc (List.chain'_singleton _) ?_
    intro x hx y hy
    simp only [List.head?_cons, Option.mem_def, Option.some.injEq] at hy
    subst hy
    rw [h3] at hx
    simp only [Option.mem_def, Option.some.injEq] at hx
    subst hx
    exact hrel

theorem mid_setStatus (job0 : Job) (s : St) (x : String) (h : Mid job0 s) :
    Mid job0 (setStatus s x) :=
  mid_wr job0 s _ h rfl (fun _ => le_refl _)

theorem mid_setProgress (job0 : Job) (s : St) (p : Nat) (h : Mid job0 s)
    (hp : s.job.progress ≤ p) : Mid job0 (setProgress s p) :=
  mid_wr job0 s _ h rfl (fun _ => hp)

theorem mid_callFoam (job0 : Job) (s : St) (c : String) (a : List String)
    (par : Bool) (np : Nat) (de er : Option String) (h : Mid job0 s)
    (hsn : c = "snappyHexMesh" → par = false) :
    Mid job0 (callFoam s c a par np de er).1 := by
  obtain ⟨h1, h2, h3, h4, h5, h6, h7⟩ := h
  refine ⟨h1, h2, h3, h4, h5, ?_, h7⟩
  intro i hi
  rcases List.mem_append.mp hi with hi | hi
  · exact h6 i hi
  · simp at hi
    subst hi
    intro hc
    exact hsn hc

theorem mid_start (job0 : Job) :
    Mid job0 (setProgress (setStatus (initSt job0) "preparing") 5) := by
  have htr : (setProgress (setStatus (initSt job0) "preparing") 5).trace =
      [prepJob job0, prepJob5 job0] := rfl
  refine ⟨?_, ?_, rfl, rfl, ?_, ?_, ?_⟩
  · rw [htr]; rfl
  · rw [htr]; simp
  · intro j hj
    rw [htr] at hj
    simp only [List.mem_cons, List.mem_singleton, List.not_mem_nil, or_false] at hj
    rcases hj with hj | hj <;> (subst hj; rfl)
  · intro i hi
    exact absurd hi (List.not_mem_nil i)
  · intro hp
    show List.Chain' progressRel [job0, prepJob job0, prepJob5 job0]
    refine List.chain'_cons.mpr ⟨fun _ => le_refl _,
      List.chain'_cons.mpr ⟨fun _ => hp, List.chain'_singleton _⟩⟩

theorem goodRun_of_mid (job0 : Job) (s : St) (h : Mid job0 s)
    (hterm : job0.results = none → job0.error = none →
      ((s.job.results ≠ none ↔ s.job.status = "complete") ∧
       (s.job.error ≠ none ↔ s.job.status = "failed"))) :
    GoodRun job0 (finishRun s) := by
  obtain ⟨h1, h2, h3, h4, h5, h6, h7⟩ := h
  exact ⟨h1, h4, h5, h6, h7, hterm⟩

theorem goodRun_failWith (job0 : Job) (s : St) (msg : String) (h : Mid job0 s)
    (hres : s.job.results = job0.results) :
    GoodRun job0 (finishRun (failWith s msg)) ∧
    (finishRun (failWith s msg)).final.status = "failed" ∧
    (finishRun (failWith s msg)).final.error = some msg := by
  have h1 : Mid job0 (setStatus s "failed") := mid_setStatus job0 s "failed" h
  have h2 : Mid job0 (failWith s msg) :=
    mid_wr job0 (setStatus s "failed") _ h1 rfl (fun hb => absurd rfl hb)
  refine ⟨goodRun_of_mid job0 _ h2 ?_, rfl, rfl⟩
  intro hres0 _
  constructor
  · constructor
    · intro hcon
      exact absurd (show (failWith s msg).job.results = none by
        show s.job.results = none; rw [hres, hres0]) hcon
    · intro hcon
      exact absurd (show ("failed" : String) = "complete" from hcon) (by decide)
  · exact ⟨fun _ => rfl, fun _ => Option.some_ne_none msg⟩

theorem goodRun_success (job0 : Job) (s : St) (r : JobResults) (h : Mid job0 s)
    (herr : s.job.error = job0.error) (hp : s.job.progress ≤ 100) :
    GoodRun job0
      (finishRun (setStatus (setProgress (setResults s r) 100) "complete")) ∧
    (finishRun (setStatus (setProgress (setResults s r) 100)
        "complete")).final.status = "complete" ∧
    (finishRun (setStatus (setProgress (setResults s r) 100)
        "complete")).final.results = some r := by
  have h1 : Mid job0 (setResults s r) :=
    mid_wr job0 s _ h rfl (fun _ => le_refl _)
  have h2 : Mid job0 (setProgress (setResults s r) 100) :=
    mid_setProgress job0 _ 100 h1 hp
  have h3 : Mid job0 (setStatus (setProgress (setResults s r) 100) "complete") :=
    mid_setStatus job0 _ "complete" h2
  refine ⟨goodRun_of_mid job0 _ h3 ?_, rfl, rfl⟩
  intro _ herr0
  constructor
  · exact ⟨fun _ => rfl, fun _ => Option.some_ne_none r⟩
  · constructor
    · intro hcon
      exact absurd (show (setStatus (setProgress (setResults s r) 100)
          "complete").job.error = none by
        show s.job.error = none; rw [herr, herr0]) hcon
    · intro hcon
      exact absurd (show ("complete" : String) = "failed" from hcon) (by decide)

/-- The common tail of `run_simulation` from the solving stage onward
(foamRun, then result extraction), for either parallel mode. -/

theorem tail_spec (job0 : Job) (s : St) (uP : Bool) (np : Nat)
    (de fe : Option String) (ex : Except String JobResults)
    (hm : Mid job0 s) (hres : s.job.results = job0.results)
    (herr : s.job.error = job0.error) (hprog : s.job.progress ≤ 55) :
    GoodRun job0
      (match callFoam (setProgress (setStatus s "solving") 55) "foamRun"
          ["-solver", "incompressibleFluid"] uP np de fe with
        | (s, some e) => finishRun (failWith s e)
        | (s, none) =>
          match ex with
          | Except.error e =>
            finishRun (failWith
              (setProgress (setStatus (setProgress s 85) "post-processing") 90) e)
          | Except.ok r =>
            finishRun (setStatus (setProgress (setResults
              (setProgress (setStatus (setProgress s 85) "post-processing") 90)
              r) 100) "complete")) := by
  have hm55 : Mid job0 (setProgress (setStatus s "solving") 55) :=
    mid_setProgress job0 _ 55 (mid_setStatus job0 s "solving" hm)
      (show s.job.progress ≤ 55 from hprog)
  have hmF : Mid job0 (callFoam (setProgress (setStatus s "solving") 55) "foamRun"
      ["-solver", "incompressibleFluid"] uP np de fe).1 :=
    mid_callFoam job0 _ _ _ _ _ _ _ hm55 (fun hc => absurd hc (by decide))
  split
  next sF e heqF =>
    have hf : (callFoam (setProgress (setStatus s "solving") 55) "foamRun"
        ["-solver", "incompressibleFluid"] uP np de fe).1 = sF :=
      congrArg Prod.fst heqF
    rw [hf] at hmF
    have hresF : sF.job.results = job0.results := by
      rw [← hf]; show s.job.results = _; exact hres
    exact (goodRun_failWith job0 sF e hmF hresF).1
  next sF heqF =>
    have hf : (callFoam (setProgress (setStatus s "solving") 55) "foamRun"
        ["-solver", "incompressibleFluid"] uP np de fe).1 = sF :=
      congrArg Prod.fst heqF
    rw [hf] at hmF
    have hresF : sF.job.results = job0.results := by
      rw [← hf]; show s.job.results = _; exact hres
    have herrF : sF.job.error = job0.error := by
      rw [← hf]; show s.job.error = _; exact herr
    have hprogF : sF.job.progress = 55 := by rw [← hf]; rfl
    have hm90 : Mid job0
        (setProgress (setStatus (setProgress sF 85) "post-processing") 90) :=
      mid_setProgress job0 _ 90
        (mid_setStatus job0 _ "post-processing"
          (mid_setProgress job0 sF 85 hmF (by rw [hprogF]; decide)))
        (show (85 : Nat) ≤ 90 by decide)
    cases ex with
    | error e =>
      have hresE : (setProgress (setStatus (setProgress sF 85)
          "post-processing") 90).job.results = job0.results := by
        show sF.job.results = _; exact hresF
      exact (goodRun_failWith job0 _ e hm90 hresE).1
    | ok r =>
      have herr90 : (setProgress (setStatus (setProgress sF 85)
          "post-processing") 90).job.error = job0.error := by
        show sF.job.error = _; exact herrF
      exact (goodRun_success job0 _ r hm90 herr90 (show (90 : Nat) ≤ 100 by decide)).1

/-- Master case analysis of one `run_simulation` call: every execution
satisfies `GoodRun`, and when the geometry source does not resolve the run
ends failed with the error naming the file_id. -/

theorem runSimulation_spec (env : Env) (job0 : Job) :
    GoodRun job0 (runSimulation env job0) ∧
    (env.fileFound = false →
      (runSimulation env job0).final.status = "failed" ∧
      (runSimulation env job0).final.error =
        some ("Source file not found for file_id: " ++ job0.config.file_id)) := by
  have hm2 := mid_start job0
  simp only [runSimulation]
  split
  next hff =>
    obtain ⟨hg, hst, herr⟩ := goodRun_failWith job0 _
      ("Source file not found for file_id: " ++ job0.config.file_id) hm2 rfl
    exact ⟨hg, fun _ => ⟨hst, herr⟩⟩
  next hff =>
    split
    next e heq =>
      obtain ⟨hg, hst, herr⟩ := goodRun_failWith job0 _ e hm2 rfl
      exact ⟨hg, fun hc => absurd hc hff⟩
    next heq =>
      split
      next e heq2 =>
        obtain ⟨hg, hst, herr⟩ := goodRun_failWith job0 _ e hm2 rfl
        exact ⟨hg, fun hc => absurd hc hff⟩
      next heq2 =>
        have hm15 : Mid job0 (setProgress (setStatus (setProgress
            (setProgress (setStatus (initSt job0) "preparing") 5) 10)
            "meshing") 15) :=
          mid_setProgress job0 _ 15
            (mid_setStatus job0 _ "meshing"
              (mid_setProgress job0 _ 10 hm2 (show (5 : Nat) ≤ 10 by decide)))
            (show (10 : Nat) ≤ 15 by decide)
        have hmB : Mid job0 (callFoam (setProgress (setStatus (setProgress
            (setProgress (setStatus (initSt job0) "preparing") 5) 10)
            "meshing") 15) "blockMesh" [] false 8 env.decomposeErr
            env.blockMeshErr).1 :=
          mid_callFoam job0 _ _ _ _ _ _ _ hm15 (fun _ => rfl)
        split
        next sB e heqB =>
          have hf : (callFoam (setProgress (setStatus (setProgress
              (setProgress (setStatus (initSt job0) "preparing") 5) 10)
              "meshing") 15) "blockMesh" [] false 8 env.decomposeErr
              env.blockMeshErr).1 = sB := congrArg Prod.fst heqB
          rw [hf] at hmB
          have hresB : sB.job.results = job0.results := by rw [← hf]; rfl
          obtain ⟨hg, hst, herr⟩ := goodRun_failWith job0 sB e hmB hresB
          exact ⟨hg, fun hc => absurd hc hff⟩
        next sB heqB =>
          have hf : (callFoam (setProgress (setStatus (setProgress
              (setProgress (setStatus (initSt job0) "preparing") 5) 10)
              "meshing") 15) "blockMesh" [] false 8 env.decomposeErr
              env.blockMeshErr).1 = sB := congrArg Prod.fst heqB
          rw [hf] at hmB
          have hresB : sB.job.results = job0.results := by rw [← hf]; rfl
          have herrB : sB.job.error = job0.error := by rw [← hf]; rfl
          have hprogB : sB.job.progress = 15 := by rw [← hf]; rfl
          have hmS : Mid job0 (callFoam (setProgress sB 20) "snappyHexMesh"
              ["-overwrite"] false (numProcsOf env.numCpus) env.decomposeErr
              env.snappyErr).1 :=
            mid_callFoam job0 _ _ _ _ _ _ _
              (mid_setProgress job0 sB 20 hmB (by rw [hprogB]; decide))
              (fun _ => rfl)
          split
          next sS e heqS =>
            have hf2 : (callFoam (setProgress sB 20) "snappyHexMesh"
                ["-overwrite"] false (numProcsOf env.numCpus) env.decomposeErr
                env.snappyErr).1 = sS := congrArg Prod.fst heqS
            rw [hf2] at hmS
            have hresS : sS.job.results = job0.results := by
              rw [← hf2]; show sB.job.results = _; exact hresB
            obtain ⟨hg, hst, herr⟩ := goodRun_failWith job0 sS e hmS hresS
            exact ⟨hg, fun hc => absurd hc hff⟩
          next sS heqS =>
            have hf2 : (callFoam (setProgress sB 20) "snappyHexMesh"
                ["-overwrite"] false (numProcsOf env.numCpus) env.decomposeErr
                env.snappyErr).1 = sS := congrArg Prod.fst heqS
            rw [hf2] at hmS
            have hresS : sS.job.results = job0.results := by
              rw [← hf2]; show sB.job.results = _; exact hresB
            have herrS : sS.job.error = job0.error := by
              rw [← hf2]; show sB.job.error = _; exact herrB
            have hprogS : sS.job.progress = 20 := by rw [← hf2]; rfl
            have hm45 : Mid job0 (setProgress sS 45) :=
              mid_setProgress job0 sS 45 hmS (by rw [hprogS]; decide)
            have hmT : Mid job0 ((if job0.config.rotation_method = "mrf" ∧
                job0.config.rolling_enabled = true then
                  callFoam (setProgress sS 45) "topoSet" [] false 8
                    env.decomposeErr env.topoSetErr
                else (setProgress sS 45, none)).1) := by
              split
              · exact mid_callFoam job0 _ _ _ _ _ _ _ hm45
                  (fun hc => absurd hc (by decide))
              · exact hm45
            have hresT : ((if job0.config.rotation_method = "mrf" ∧
                job0.config.rolling_enabled = true then
                  callFoam (setProgress sS 45) "topoSet" [] false 8
                    env.decomposeErr env.topoSetErr
                else (setProgress sS 45, none)).1).job.results = job0.results := by
              split
              · show sS.job.results = _; exact hresS
              · show sS.job.results = _; exact hresS
            have herrT : ((if job0.config.rotation_method = "mrf" ∧
                job0.config.rolling_enabled = true then
                  callFoam (setProgress sS 45) "topoSet" [] false 8
                    env.decomposeErr env.topoSetErr
                else (setProgress sS 45, none)).1).job.error = job0.error := by
              split
              · show sS.job.error = _; exact herrS
              · show sS.job.error = _; exact herrS
            have hprogT : ((if job0.config.rotation_method = "mrf" ∧
                job0.config.rolling_enabled = true then
                  callFoam (setProgress sS 45) "topoSet" [] false 8
                    env.decomposeErr env.topoSetErr
                else (setProgress sS 45, none)).1).job.progress = 45 := by
              split
              · rfl
              · rfl
            split
            next sT e heqT =>
              have hf3 : ((if job0.config.rotation_method = "mrf" ∧
                  job0.config.rolling_enabled = true then
                    callFoam (setProgress sS 45) "topoSet" [] false 8
                      env.decomposeErr env.topoSetErr
                  else (setProgress sS 45, none)).1) = sT :=
                congrArg Prod.fst heqT
              rw [hf3] at hmT hresT
              obtain ⟨hg, hst, herr⟩ := goodRun_failWith job0 sT e hmT hresT
              exact ⟨hg, fun hc => absurd hc hff⟩
            next sT heqT =>
              have hf3 : ((if job0.config.rotation_method = "mrf" ∧
                  job0.config.rolling_enabled = true then
                    callFoam (setProgress sS 45) "topoSet" [] false 8
                      env.decomposeErr env.topoSetErr
                  else (setProgress sS 45, none)).1) = sT :=
                congrArg Prod.fst heqT
              rw [hf3] at hmT hresT herrT hprogT
              have hm50 : Mid job0 (setProgress sT 50) :=
                mid_setProgress job0 sT 50 hmT (by rw [hprogT]; decide)
              cases hq : (job0.config.quality == "standard" ||
                  job0.config.quality == "pro") with
              | false =>
                simp only [hq, Bool.false_eq_true, if_false]
                refine ⟨tail_spec job0 (setProgress sT 50) false
                  (numProcsOf env.numCpus) env.decomposeErr env.foamRunErr
                  env.extract hm50 ?_ ?_ ?_, fun hc => absurd hc hff⟩
                · show sT.job.results = _; exact hresT
                · show sT.job.error = _; exact herrT
                · show (50 : Nat) ≤ 55; decide
              | true =>
                simp only [hq, if_true]
                have hmPF : Mid job0 (callFoam (setProgress sT 50)
                    "potentialFoam" ["-writephi"] true (numProcsOf env.numCpus)
                    env.decomposeErr env.potentialFoamErr).1 :=
                  mid_callFoam job0 _ _ _ _ _ _ _ hm50
                    (fun hc => absurd hc (by decide))
                refine ⟨tail_spec job0 _ true
                  (numProcsOf env.numCpus) env.decomposeErr env.foamRunErr
                  env.extract hmPF ?_ ?_ ?_, fun hc => absurd hc hff⟩
                · show sT.job.results = _; exact hresT
                · show sT.job.error = _; exact herrT
                · show (50 : Nat) ≤ 55; decide

/-- C4: at every point where a job is persisted to the registry — its
creation by `db.create_job` and the final `sync_job_to_db` at the end of
`run_simulation` — `results` is non-null iff `status == "complete"` and
`error` is non-null iff `status == "failed"`. -/

theorem persisted_results_error_iff (env : Env) (id : String) (cfg : Config) :
    (((dbCreateJob id cfg).results ≠ none ↔
        (dbCreateJob id cfg).status = "complete") ∧
     ((dbCreateJob id cfg).error ≠ none ↔
        (dbCreateJob id cfg).status = "failed")) ∧
    (((runSimulation env (dbCreateJob id cfg)).final.results ≠ none ↔
        (runSimulation env (dbCreateJob id cfg)).final.status = "complete") ∧
     ((runSimulation env (dbCreateJob id cfg)).final.error ≠ none ↔
        (runSimulation env (dbCreateJob id cfg)).final.status = "failed")) := by
  constructor
  · constructor
    · exact ⟨fun h => absurd rfl h,
        fun h => absurd (show ("pending" : String) = "complete" from h) (by decide)⟩
    · exact ⟨fun h => absurd rfl h,
        fun h => absurd (show ("pending" : String) = "failed" from h) (by decide)⟩
  · exact (runSimulation_spec env (dbCreateJob id cfg)).1.2.2.2.2.2 rfl rfl

/-- C5: across one `run_simulation` call on a freshly created job, the
successive registry-observable job states (the creation state followed by
every write the orchestrator makes to the cached job entry) have
non-decreasing progress as long as no failure has been recorded: for each
adjacent pair, if the later state is not failed, progress did not decrease.
(On the failure write itself progress is also preserved, so the chain holds
at every step of the run.) -/

theorem progress_monotone (env : Env) (id : String) (cfg : Config) :
    List.Chain' progressRel
      (dbCreateJob id cfg :: (runSimulation env (dbCreateJob id cfg)).trace) :=
  (runSimulation_spec env (dbCreateJob id cfg)).1.2.2.2.2.1
    (show (0 : Nat) ≤ 5 by decide)

/-- Witness for C5: the chain evaluated on a concrete all-successful run. -/

theorem progress_monotone_witness :
    List.Chain' progressRel
      (dbCreateJob "j1" cfg0 :: (runSimulation envOk (dbCreateJob "j1" cfg0)).trace) :=
  progress_monotone envOk "j1" cfg0

/-- C9: for every config whose geometry reference does not resolve to an
uploaded source file, `run_simulation` terminates with status `"failed"` and
an error string mentioning that reference (it is exactly
`"Source file not found for file_id: <file_id>"`). -/

theorem missing_geometry_fails (env : Env) (id : String) (cfg : Config)
    (hff : env.fileFound = false) :
    (runSimulation env (dbCreateJob id cfg)).final.status = "failed" ∧
    (runSimulation env (dbCreateJob id cfg)).final.error =
      some ("Source file not found for file_id: " ++ cfg.file_id) :=
  (runSimulation_spec env (dbCreateJob id cfg)).2 hff

/-- Witness for C9 at a concrete environment and config. -/

theorem missing_geometry_fails_witness :
    (runSimulation envNoFile (dbCreateJob "j2" cfg0)).final.status = "failed" ∧
    (runSimulation envNoFile (dbCreateJob "j2" cfg0)).final.error =
      some ("Source file not found for file_id: " ++ cfg0.file_id) :=
  missing_geometry_fails envNoFile "j2" cfg0 rfl

/-- Counterexample to C3 as stated: invoking `run_simulation` on a job whose
status is already terminal ("complete", progress 100, results present) is not
a no-op — here it re-runs the pipeline and overwrites the terminal state
(ending failed, because the geometry no longer resolves). -/

theorem rerun_not_noop_counterexample :
    jobDone.status = "complete" ∧
    (runSimulation envNoFile jobDone).final.status = "failed" ∧
    (runSimulation envNoFile jobDone).final.status ≠ jobDone.status := by
  refine ⟨rfl, rfl, by decide⟩

/-- C3 (amended): `run_simulation` performs no terminal-state check —
re-invoked on an already-terminal job it re-executes the pipeline from the
preparing stage (its first two registry-visible writes set status
`"preparing"` and progress 5) instead of being a no-op; callers must guard
against re-invocation. -/

theorem rerun_reexecutes (env : Env) (job0 : Job)
    (_hterm : job0.status = "complete" ∨ job0.status = "failed") :
    (runSimulation env job0).trace.take 2 = [prepJob job0, prepJob5 job0] ∧
    (runSimulation env job0).trace ≠ [] := by
  have h := (runSimulation_spec env job0).1.1
  refine ⟨h, ?_⟩
  intro hnil
  rw [hnil] at h
  exact absurd h (by simp)

/-- Witness for C3 (amended) at the concrete terminal job. -/

theorem rerun_reexecutes_witness :
    (runSimulation envOk jobDone).trace.take 2 = [prepJob jobDone, prepJob5 jobDone] ∧
    (runSimulation envOk jobDone).trace ≠ [] :=
  rerun_reexecutes envOk jobDone (Or.inl rfl)

/-- Counterexample to C6 as stated: with quality "standard" (a tier that
requests parallel execution) and every external step succeeding, the
snappyHexMesh invocation of the pipeline still has `parallel = false`, and no
`reconstructParMesh` merge is performed anywhere in the run. -/

theorem snappy_serial_counterexample :
    cfg0.quality = "standard" ∧
    (((runSimulation envOk (dbCreateJob "j3" cfg0)).invs.filter
        (fun i => i.command == "snappyHexMesh")).map Invocation.parallel) =
      [false] ∧
    FoamAction.reconstructParMesh ∉ (runSimulation envOk (dbCreateJob "j3" cfg0)).acts := by
  refine ⟨rfl, by decide, by decide⟩

/-- C6 (amended): the meshing(refine) stage always invokes snappyHexMesh
serially (`parallel=False`), even when the configured quality tier requests
parallel execution; the merge-and-clean behaviour the claim describes —
reconstructParMesh followed by deletion of the processor directories, leaving
a non-partitioned workspace — is implemented in `run_openfoam_command` and
fires exactly when a snappyHexMesh invocation actually runs in parallel mode
and exits successfully. -/

theorem snappy_serial_and_parallel_reconstruct :
    (∀ (env : Env) (job0 : Job), ∀ i ∈ (runSimulation env job0).invs,
      i.command = "snappyHexMesh" → i.parallel = false) ∧
    (∀ (ws : Workspace) (args : List String) (np : Nat),
      (runOpenfoamCommand ws "snappyHexMesh" args true np none none).1 = none ∧
      (runOpenfoamCommand ws "snappyHexMesh" args true np
          none none).2.1.processorDirs = false ∧
      FoamAction.reconstructParMesh ∈
        (runOpenfoamCommand ws "snappyHexMesh" args true np none none).2.2 ∧
      FoamAction.removeProcessorDirs ∈
        (runOpenfoamCommand ws "snappyHexMesh" args true np none none).2.2) := by
  constructor
  · intro env job0 i hi hc
    exact (runSimulation_spec env job0).1.2.2.2.1 i hi hc
  · intro ws args np
    rcases ws with ⟨hd, pd⟩
    cases hd <;> cases pd <;>
      simp [runOpenfoamCommand, foamRunPhase, serial_only, reconstructFieldCommands]

/-- Witness for C6 (amended): the serial-snappy fact at the concrete
all-successful standard-quality run, and the reconstruct fact at a concrete
workspace. -/

theorem snappy_serial_and_parallel_reconstruct_witness :
    (Invocation.mk "snappyHexMesh" ["-overwrite"] false (numProcsOf 8)).parallel
      = false ∧
    (runOpenfoamCommand ⟨false, false⟩ "snappyHexMesh" ["-overwrite"] true 8
      none none).2.1.processorDirs = false := by
  constructor
  · exact snappy_serial_and_parallel_reconstruct.1 envOk (dbCreateJob "j4" cfg0)
      _ (by decide) rfl
  · exact (snappy_serial_and_parallel_reconstruct.2 ⟨false, false⟩
      ["-overwrite"] 8).2.1

theorem digitsF_zero (fuel : Nat) : digitsF fuel 0 = [] := by
  cases fuel <;> simp [digitsF]

theorem digitsF_ofDigits :
    ∀ fuel n, n ≤ fuel → Nat.ofDigits 10 (digitsF fuel n) = n := by
  intro fuel
  induction fuel with
  | zero =>
    intro n h
    interval_cases n
    simp [digitsF]
  | succ fuel ih =>
    intro n h
    by_cases hn : n = 0
    · subst hn; simp [digitsF]
    · rw [show digitsF (fuel + 1) n = n % 10 :: digitsF fuel (n / 10) by
        simp [digitsF, hn]]
      rw [Nat.ofDigits_cons, ih (n / 10) (by omega)]
      omega

theorem digitsF_lt : ∀ fuel n d, d ∈ digitsF fuel n → d < 10 := by
  intro fuel
  induction fuel with
  | zero => intro n d hd; simp [digitsF] at hd
  | succ fuel ih =>
    intro n d hd
    by_cases hn : n = 0
    · subst hn; simp [digitsF] at hd
    · rw [show digitsF (fuel + 1) n = n % 10 :: digitsF fuel (n / 10) by
        simp [digitsF, hn]] at hd
      rcases List.mem_cons.mp hd with hd | hd
      · omega
      · exact ih (n / 10) d hd

theorem digitsF_nil_iff (fuel n : Nat) (hf : 1 ≤ fuel) :
    digitsF fuel n = [] ↔ n = 0 := by
  cases fuel with
  | zero => omega
  | succ fuel =>
    by_cases hn : n = 0
    · subst hn; simp [digitsF]
    · simp [digitsF, hn]

theorem digitsF_last :
    ∀ fuel n, n ≤ fuel → n ≠ 0 →
      ∃ d, (digitsF fuel n).getLast? = some d ∧ d ≠ 0 ∧ d < 10 := by
  intro fuel
  induction fuel with
  | zero => intro n h hn; omega
  | succ fuel ih =>
    intro n h hn
    rw [show digitsF (fuel + 1) n = n % 10 :: digitsF fuel (n / 10) by
      simp [digitsF, hn]]
    by_cases hq : n / 10 = 0
    · rw [hq, digitsF_zero]
      exact ⟨n % 10, rfl, by omega, by omega⟩
    · obtain ⟨d, hd, hd0, hd10⟩ := ih (n / 10) (by omega) hq
      refine ⟨d, ?_, hd0, hd10⟩
      rcases hx : digitsF fuel (n / 10) with _ | ⟨x, xs⟩
      · rw [hx] at hd
        simp at hd
      · rw [hx] at hd
        rw [List.getLast?_cons_cons]
        exact hd

theorem digitsF_len2 (fuel n : Nat) (h : n ≤ fuel) (h10 : 10 ≤ n) :
    2 ≤ (digitsF fuel n).length := by
  cases fuel with
  | zero => omega
  | succ fuel =>
    rw [show digitsF (fuel + 1) n = n % 10 :: digitsF fuel (n / 10) by
      simp [digitsF]; omega]
    have hq : n / 10 ≠ 0 := by omega
    have hne : digitsF fuel (n / 10) ≠ [] := fun hcon =>
      hq ((digitsF_nil_iff fuel (n / 10) (by omega)).mp hcon)
    have := List.length_pos.mpr hne
    simp only [List.length_cons]
    omega

theorem digitsF_small (fuel n : Nat) (h : n ≤ fuel) (h10 : n < 10) :
    digitsF fuel n = if n = 0 then [] else [n] := by
  cases fuel with
  | zero =>
    interval_cases n
    simp [digitsF]
  | succ fuel =>
    by_cases hn : n = 0
    · subst hn; simp [digitsF]
    · rw [show digitsF (fuel + 1) n = n % 10 :: digitsF fuel (n / 10) by
        simp [digitsF, hn]]
      rw [show n / 10 = 0 by omega, digitsF_zero]
      simp [hn]
      omega

theorem natDigitChar_inj {d1 d2 : Nat} (h1 : d1 < 10) (h2 : d2 < 10)
    (h : natDigitChar d1 = natDigitChar d2) : d1 = d2 := by
  interval_cases d1 <;> interval_cases d2 <;> revert h <;> decide

theorem natDigitChar_ne_dash {d : Nat} (h : d < 10) : natDigitChar d ≠ '-' := by
  interval_cases d <;> decide

theorem natDigitChar_eq_zero {d : Nat} (h : d < 10)
    (he : natDigitChar d = '0') : d = 0 := by
  interval_cases d <;> revert he <;> decide

theorem mapDigit_inj :
    ∀ l1 l2 : List Nat, (∀ x ∈ l1, x < 10) → (∀ x ∈ l2, x < 10) →
      l1.map natDigitChar = l2.map natDigitChar → l1 = l2 := by
  intro l1
  induction l1 with
  | nil =>
    intro l2 _ _ h
    cases l2 with
    | nil => rfl
    | cons b m => simp at h
  | cons a l ih =>
    intro l2 h1 h2 h
    cases l2 with
    | nil => simp at h
    | cons b m =>
      simp only [List.map_cons, List.cons.injEq] at h
      have ha := natDigitChar_inj (h1 a (by simp)) (h2 b (by simp)) h.1
      rw [ha, ih m (fun x hx => h1 x (by simp [hx]))
        (fun x hx => h2 x (by simp [hx])) h.2]

theorem natDecimal_inj (m n : Nat) (h : natDecimal m = natDecimal n) : m = n := by
  unfold natDecimal at h
  have h2 := List.reverse_injective h
  have h3 := mapDigit_inj _ _ (fun x hx => digitsF_lt m m x hx)
    (fun x hx => digitsF_lt n n x hx) h2
  have h4 := congrArg (Nat.ofDigits 10) h3
  rw [digitsF_ofDigits m m le_rfl, digitsF_ofDigits n n le_rfl] at h4
  exact_mod_cast h4

theorem natDecimal_chars (n : Nat) :
    ∀ c ∈ natDecimal n, ∃ d, d < 10 ∧ c = natDigitChar d := by
  intro c hc
  unfold natDecimal at hc
  rw [List.mem_reverse] at hc
  obtain ⟨d, hd, rfl⟩ := List.mem_map.mp hc
  exact ⟨d, digitsF_lt n n d hd, rfl⟩

theorem natDecimal_head (n : Nat) (hn : n ≠ 0) :
    ∃ d, d < 10 ∧ d ≠ 0 ∧ (natDecimal n).head? = some (natDigitChar d) := by
  obtain ⟨d, hd, hd0, hd10⟩ := digitsF_last n n le_rfl hn
  refine ⟨d, hd10, hd0, ?_⟩
  unfold natDecimal decDigits
  rw [List.head?_reverse, List.getLast?_map, hd]
  rfl

theorem natDecimal_small (n : Nat) (h10 : n < 10) :
    natDecimal n = if n = 0 then [] else [natDigitChar n] := by
  unfold natDecimal decDigits
  rw [digitsF_small n n le_rfl h10]
  by_cases hn : n = 0 <;> simp [hn]

theorem format02_nonneg_small (z : Int) (h0 : 0 ≤ z) (h : z < 10) :
    format02 z = ⟨['0', natDigitChar z.toNat]⟩ := by
  unfold format02
  rw [if_neg (by omega)]
  rw [natDecimal_small z.toNat (by omega)]
  by_cases hz : z.toNat = 0
  · rw [hz]
    simp only [if_pos rfl, List.length_nil, Nat.sub_zero, List.append_nil]
    rfl
  · rw [if_neg hz]
    rfl

theorem format02_nonneg_large (z : Int) (h : 10 ≤ z) :
    format02 z = ⟨natDecimal z.toNat⟩ := by
  unfold format02
  rw [if_neg (by omega)]
  have hlen : 2 ≤ (natDecimal z.toNat).length := by
    unfold natDecimal
    rw [List.length_reverse, List.length_map]
    exact digitsF_len2 z.toNat z.toNat le_rfl (by omega)
  rw [show 2 - (natDecimal z.toNat).length = 0 by omega]
  rfl

theorem dash_not_mem (k n : Nat) :
    '-' ∉ List.replicate k '0' ++ natDecimal n := by
  intro hm
  rcases List.mem_append.mp hm with hm | hm
  · have := List.eq_of_mem_replicate hm
    exact absurd this (by decide)
  · obtain ⟨d, hd10, hd⟩ := natDecimal_chars n '-' hm
    exact absurd hd.symm (natDigitChar_ne_dash hd10)

theorem format02_inj (a b : Int) (h : format02 a = format02 b) : a = b := by
  by_cases ha : a < 0 <;> by_cases hb : b < 0
  · -- both negative
    unfold format02 at h
    rw [if_pos ha, if_pos hb] at h
    have hl : '-' :: natDecimal a.natAbs = '-' :: natDecimal b.natAbs :=
      congrArg String.data h
    have := natDecimal_inj _ _ (List.tail_eq_of_cons_eq hl)
    omega
  · -- a negative, b nonnegative
    unfold format02 at h
    rw [if_pos ha, if_neg hb] at h
    have hl : '-' :: natDecimal a.natAbs =
        List.replicate (2 - (natDecimal b.toNat).length) '0' ++
          natDecimal b.toNat := congrArg String.data h
    have hmem : '-' ∈ List.replicate (2 - (natDecimal b.toNat).length) '0' ++
        natDecimal b.toNat := hl ▸ List.mem_cons_self '-' _
    exact absurd hmem (dash_not_mem _ _)
  · -- a nonnegative, b negative
    unfold format02 at h
    rw [if_neg ha, if_pos hb] at h
    have hl : '-' :: natDecimal b.natAbs =
        List.replicate (2 - (natDecimal a.toNat).length) '0' ++
          natDecimal a.toNat := (congrArg String.data h).symm
    have hmem : '-' ∈ List.replicate (2 - (natDecimal a.toNat).length) '0' ++
        natDecimal a.toNat := hl ▸ List.mem_cons_self '-' _
    exact absurd hmem (dash_not_mem _ _)
  · -- both nonnegative
    push_neg at ha hb
    by_cases ha10 : a < 10 <;> by_cases hb10 : b < 10
    · rw [format02_nonneg_small a ha ha10, format02_nonneg_small b hb hb10] at h
      have hl : ['0', natDigitChar a.toNat] = ['0', natDigitChar b.toNat] :=
        congrArg String.data h
      have := @natDigitChar_inj a.toNat b.toNat
        (by omega) (by omega) (by injection hl with h1 h2; injection h2 with h3)
      omega
    · rw [format02_nonneg_small a ha ha10,
        format02_nonneg_large b (by omega)] at h
      have hl : ['0', natDigitChar a.toNat] = natDecimal b.toNat :=
        congrArg String.data h
      obtain ⟨d, hd10, hd0, hdh⟩ := natDecimal_head b.toNat (by omega)
      rw [← hl] at hdh
      simp only [List.head?_cons, Option.some.injEq] at hdh
      exact absurd (natDigitChar_eq_zero hd10 hdh.symm) hd0
    · rw [format02_nonneg_small b hb hb10,
        format02_nonneg_large a (by omega)] at h
      have hl : ['0', natDigitChar b.toNat] = natDecimal a.toNat :=
        (congrArg String.data h).symm
      obtain ⟨d, hd10, hd0, hdh⟩ := natDecimal_head a.toNat (by omega)
      rw [← hl] at hdh
      simp only [List.head?_cons, Option.some.injEq] at hdh
      exact absurd (natDigitChar_eq_zero hd10 hdh.symm) hd0
    · rw [format02_nonneg_large a (by omega),
        format02_nonneg_large b (by omega)] at h
      have hl : natDecimal a.toNat = natDecimal b.toNat :=
        congrArg String.data h
      have := natDecimal_inj _ _ hl
      omega

theorem string_data_inj {s t : String} (h : s.data = t.data) : s = t := by
  cases s
  cases t
  exact congrArg String.mk h

theorem batchSubJobId_inj (bid : String) (z1 z2 : Int)
    (h : bid ++ "_" ++ format02 z1 = bid ++ "_" ++ format02 z2) : z1 = z2 := by
  have hl : (bid.data ++ "_".data) ++ (format02 z1).data =
      (bid.data ++ "_".data) ++ (format02 z2).data := congrArg String.data h
  have hl2 := List.append_cancel_left hl
  exact format02_inj z1 z2 (string_data_inj hl2)

/-- Counterexample to C7 as stated: two distinct yaw angles 5.2 and 5.8
(both truncating to 5) produce the same generated sub-job id, so the batch
path does not guarantee distinct ids for distinct job creations.  Likewise
-0.5 and 0.5 both truncate toward zero to 0 and collide on `"b1_00"`. -/

theorem batch_ids_counterexample :
    mkRat 26 5 ≠ mkRat 29 5 ∧
    batchSubJobIds "b1" [mkRat 26 5, mkRat 29 5] = ["b1_05", "b1_05"] ∧
    ¬ (batchSubJobIds "b1" [mkRat 26 5, mkRat 29 5]).Nodup ∧
    batchSubJobIds "b1" [mkRat (-1) 2, mkRat 1 2] = ["b1_00", "b1_00"] := by
  refine ⟨by decide, by decide, by decide, by decide⟩

/-- C7 (amended): the batch path's generated sub-job ids are pairwise
distinct provided the integer truncations of the submitted yaw angles are
pairwise distinct (the id embeds only `int(yaw)`, zero-padded); and a job's
id never changes after creation — neither the final job nor any
registry-observable intermediate state of a run carries a different id. -/

theorem job_ids_distinct_amended :
    (∀ (bid : String) (yaws : List ℚ),
      (yaws.map pyInt).Nodup → (batchSubJobIds bid yaws).Nodup) ∧
    (∀ (env : Env) (job0 : Job),
      (runSimulation env job0).final.id = job0.id ∧
      ∀ j ∈ (runSimulation env job0).trace, j.id = job0.id) := by
  constructor
  · intro bid yaws h
    have hmap : batchSubJobIds bid yaws =
        (yaws.map pyInt).map (fun z => bid ++ "_" ++ format02 z) := by
      rw [List.map_map]
      rfl
    rw [hmap]
    exact h.map (fun z1 z2 hz => batchSubJobId_inj bid z1 z2 hz)
  · intro env job0
    exact ⟨(runSimulation_spec env job0).1.2.1,
      (runSimulation_spec env job0).1.2.2.1⟩

/-- Witness for C7 (amended): distinct integer yaw angles give distinct ids,
and a concrete run preserves the job id. -/

theorem job_ids_distinct_amended_witness :
    ([(0 : ℚ), 5, 10].map pyInt).Nodup ∧
    (batchSubJobIds "w" [(0 : ℚ), 5, 10]).Nodup ∧
    (runSimulation envOk (dbCreateJob "j5" cfg0)).final.id = "j5" := by
  refine ⟨by decide, job_ids_distinct_amended.1 "w" [0, 5, 10] (by decide),
    (job_ids_distinct_amended.2 envOk (dbCreateJob "j5" cfg0)).1⟩

end WheelFlow
